import Mathlib

/-!
Token-gated segments endpoint (api/main.go).

A shallow embedding of `keycloakAuth`, `getSegmentAndIdInfo` and
`getContactIdByEmail` from `api/main.go`.

* The response writer, the identity provider, the marketing platform and the
  JSON decoder are outside the repository. They are embedded as explicit state
  (`World`) and as an environment of recorded answers (`Env`).
* Every outbound call is appended to `World.calls`, so "no upstream call is
  made" is a statement about that list.
* The two decode loops have no bound in the source; they are embedded with a
  fuel argument, and `Result.timeout` is the outcome of a run that is still
  inside a loop when the fuel is used up.
* A Go map is a list of its entries; the order in which a range statement
  visits them is chosen by the environment (`Env.rangeLists`,
  `Env.rangeContacts`) and statements assume only that it is a permutation.
* A body write is recorded as the `Fprintf` call that made it, format and
  operands, so a format without verbs stands for its own text.
-/

namespace SegmentsApi

/-! ## Go library primitives -/

/-- Go `unicode.IsSpace`: the white-space code points `strings.Fields` splits on. -/
def isSpace (c : Char) : Bool :=
  let n := c.toNat
  n == 0x09 || n == 0x0A || n == 0x0B || n == 0x0C || n == 0x0D || n == 0x20 ||
  n == 0x85 || n == 0xA0 || n == 0x1680 || (0x2000 ≤ n && n ≤ 0x200A) ||
  n == 0x2028 || n == 0x2029 || n == 0x202F || n == 0x205F || n == 0x3000

/-- Worker of `Fields`: `cur` holds the characters of the field being read, reversed. -/
def fieldsAux : List Char → List Char → List String
  | [], cur => if cur.isEmpty then [] else [String.mk cur.reverse]
  | c :: cs, cur =>
    if isSpace c then
      (if cur.isEmpty then fieldsAux cs [] else String.mk cur.reverse :: fieldsAux cs [])
    else fieldsAux cs (c :: cur)

/-- Go `strings.Fields`: the maximal runs of non-space characters, in order. -/
def Fields (s : String) : List String := fieldsAux s.data []

/-- Decimal digit `d` (for `d < 10`) as a character. -/
def digit (d : Nat) : Char := Char.ofNat (48 + d)

/-- Decimal digits of `n`, most significant first; `fuel` bounds the number of digits. -/
def decimal : Nat → Nat → List Char
  | 0, _ => []
  | fuel + 1, n => if n < 10 then [digit n] else decimal fuel (n / 10) ++ [digit (n % 10)]

/-- Go `strconv.Itoa`: base-10 text of an integer, with a leading `-` when negative. -/
def Itoa (i : Int) : String :=
  if i < 0 then String.mk ('-' :: decimal (i.natAbs + 1) i.natAbs)
  else String.mk (decimal (i.natAbs + 1) i.natAbs)

/-- Go `http.Header`, as the list of (canonical key, value) pairs in the order added. -/
structure Header where
  entries : List (String × String)
  deriving DecidableEq, Repr

/-- Go `Header.Get`: the first value stored under `key`, or the empty string. -/
def Header.Get (h : Header) (key : String) : String :=
  match h.entries.find? (fun kv => kv.1 == key) with
  | some kv => kv.2
  | none => ""

/-- Go `Header.Add`: append a value under `key`. -/
def Header.Add (h : Header) (key value : String) : Header :=
  ⟨h.entries ++ [(key, value)]⟩

/-- Go `Header.Set`: replace whatever is stored under `key` by the single `value`. -/
def Header.Set (h : Header) (key value : String) : Header :=
  ⟨h.entries.filter (fun kv => kv.1 != key) ++ [(key, value)]⟩

/-- The part of `*http.Request` the handlers read. -/
structure Request where
  Method : String
  Header : Header
  deriving DecidableEq, Repr

/-! ## Data model of main.go -/

/-- JSON text of a field declared `interface{}`; never interpreted. -/
abbrev RawValue := String

structure Segment where
  IsPublished : Bool
  DateAdded : String
  DateModified : String
  CreatedBy : Int
  CreatedByUser : String
  ModifiedBy : Int
  ModifiedByUser : String
  ID : Int
  Name : String
  Alias : String
  Description : RawValue
  Filters : List RawValue
  IsGlobal : Bool
  IsPreferenceCenter : Bool
  deriving DecidableEq, Repr

/-- `Lists` is a Go map: the list holds its entries, one per key. -/
structure SegmentData where
  Total : Int
  Lists : List (String × Segment)
  deriving DecidableEq, Repr

structure SegmentAndID where
  IsChecked : Bool
  SegmentName : String
  SegmentID : String
  deriving DecidableEq, Repr

/-- `Contacts` is a Go map: the list holds its entries, one per key. -/
structure ContactInfoByEmail where
  Total : String
  Contacts : List (String × RawValue)
  deriving DecidableEq, Repr

/-- Zero value of `var data SegmentData`. -/
def SegmentData.zero : SegmentData := ⟨0, []⟩

/-- Zero value of `var data ContactInfoByEmail`. -/
def ContactInfoByEmail.zero : ContactInfoByEmail := ⟨"", []⟩

/-! ## Response writer -/

/-- An operand handed to a formatted write. -/
inductive Operand where
  | str (s : String)
  | err (msg : String)
  | marshalled (v : List SegmentAndID)
  deriving DecidableEq, Repr

/-- One write to the response body, recorded with its format and operands. -/
inductive Output where
  | printf (format : String) (args : List Operand)
  | println (text : String)
  deriving DecidableEq, Repr

/-- State of the `http.ResponseWriter` of one request. `status = none` until the
status line is written; a handler that returns in that state is answered 200. -/
structure ResponseWriter where
  header : Header
  status : Option Nat
  body : List Output
  deriving DecidableEq, Repr

/-- Go `w.WriteHeader`: the first call fixes the status, later calls are ignored. -/
def ResponseWriter.WriteHeader (w : ResponseWriter) (code : Nat) : ResponseWriter :=
  match w.status with
  | none => { w with status := some code }
  | some _ => w

/-- Go net/http `bodyAllowedForStatus`. -/
def bodyAllowedForStatus (code : Nat) : Bool :=
  if 100 ≤ code && code ≤ 199 then false
  else if code == 204 then false
  else if code == 304 then false
  else true

/-- Go `w.Write`: writes the status line 200 when none was written, then the
data, unless the status forbids a body. -/
def ResponseWriter.Write (w : ResponseWriter) (o : Output) : ResponseWriter :=
  let w1 := w.WriteHeader 200
  match w1.status with
  | some code => if bodyAllowedForStatus code then { w1 with body := w1.body ++ [o] } else w1
  | none => w1

/-- Go `fmt.Fprintf(w, format, args...)`. -/
def ResponseWriter.Fprintf (w : ResponseWriter) (format : String) (args : List Operand) :
    ResponseWriter :=
  w.Write (.printf format args)

/-- Go `http.Error`: sets `Content-Type` and `X-Content-Type-Options`, writes
the status line and prints the message. -/
def ResponseWriter.Error (w : ResponseWriter) (error : String) (code : Nat) : ResponseWriter :=
  let w1 := { w with header := w.header.Set "Content-Type" "text/plain; charset=utf-8" }
  let w2 := { w1 with header := w1.header.Set "X-Content-Type-Options" "nosniff" }
  (w2.WriteHeader code).Write (.println error)

/-! ## World and environment -/

/-- An outbound call made while serving a request. -/
inductive Call where
  | LoginClient
  | RetrospectToken (token : String)
  | Get (url : String)
  deriving DecidableEq, Repr

/-- Everything one request can change: its response writer, the outbound calls
made so far, and what was printed to standard output. -/
structure World where
  w : ResponseWriter
  calls : List Call
  stdout : List String
  deriving DecidableEq, Repr

/-- State at the start of a request. -/
def World.init : World := ⟨⟨⟨[]⟩, none, []⟩, [], []⟩

def World.call (s : World) (c : Call) : World := { s with calls := s.calls ++ [c] }

def World.HeaderAdd (s : World) (key value : String) : World :=
  { s with w := { s.w with header := s.w.header.Add key value } }

def World.WriteHeader (s : World) (code : Nat) : World := { s with w := s.w.WriteHeader code }

def World.Fprintf (s : World) (format : String) (args : List Operand) : World :=
  { s with w := s.w.Fprintf format args }

def World.Error (s : World) (error : String) (code : Nat) : World :=
  { s with w := s.w.Error error code }

/-- Go `fmt.Printf("%s", text)`. -/
def World.Printf (s : World) (text : String) : World := { s with stdout := s.stdout ++ [text] }

/-- gocloak `RetrospecTokenResult`; `Active` is a `*bool`, `none` is the nil pointer. -/
structure RetrospecTokenResult where
  Active : Option Bool
  deriving DecidableEq, Repr

/-- One complete top-level JSON value of a body, as `Decode` delivers it. -/
inductive Value (α : Type) where
  /-- The value unmarshals into `data` without error. -/
  | ok (data : α)
  /-- The value is complete JSON but does not fit the Go type: `Decode` returns
  the unmarshal error `msg` and leaves in `data` the fields it could fill. -/
  | mismatch (msg : String) (data : α)
  deriving DecidableEq, Repr

/-- How a body reads as a stream of JSON values: the complete values in order,
then either a clean end of input (`malformed = none`) or text that is not JSON
(a syntax error or a truncated value), with the error `Decode` reports for it. -/
structure Scan (α : Type) where
  values : List (Value α)
  malformed : Option String
  deriving DecidableEq, Repr

/-- The collaborators of one request: configuration and the answers of the
identity provider, the marketing platform, the JSON scanner and the map
iteration order of the Go runtime. -/
structure Env where
  mauticURL : String
  /-- Whether `http.NewRequest("GET", url, nil)` yields a request: it does unless
  the URL does not parse, in which case it returns a nil request and an error. -/
  NewRequest : String → Bool
  /-- `client.Do(req)` for a GET of the URL: a transport error or the body text. -/
  Do : String → Except String String
  /-- `kcClient.LoginClient` with the configured client id, secret and realm. -/
  LoginClient : Except String Unit
  /-- `kcClient.RetrospectToken` for a token. -/
  RetrospectToken : String → Except String RetrospecTokenResult
  scanSegments : String → Scan SegmentData
  scanContacts : String → Scan ContactInfoByEmail
  /-- The order in which `range data.Lists` visits the entries. -/
  rangeLists : List (String × Segment) → List (String × Segment)
  /-- The order in which `range data.Contacts` visits the entries. -/
  rangeContacts : List (String × RawValue) → List (String × RawValue)

/-! ## json.Decoder -/

/-- Error value returned by `Decode`: the sentinel `io.EOF` or any other error. -/
inductive DecodeError where
  | EOF
  | other (msg : String)
  deriving DecidableEq, Repr

/-- State of a `json.Decoder`: the input not yet consumed and the error the
decoder has latched (`dec.err`). -/
structure Decoder (α : Type) where
  values : List (Value α)
  malformed : Option String
  err : Option DecodeError

/-- Go `json.NewDecoder` over the text of a body. -/
def NewDecoder {α : Type} (sc : Scan α) : Decoder α := ⟨sc.values, sc.malformed, none⟩

/-- Go `dec.Decode(&data)` with `data` holding `zero` before the call. Returns
the error, the content of `data` after the call and the decoder after the call.
A latched error is returned again. A complete value is consumed, also when it
does not fit the Go type. At the end of the values the decoder latches `io.EOF`
on a clean end of input and the syntax error otherwise. -/
def Decoder.Decode {α : Type} (dec : Decoder α) (zero : α) :
    Option DecodeError × α × Decoder α :=
  match dec.err with
  | some e => (some e, zero, dec)
  | none =>
    match dec.values with
    | .ok data :: rest => (none, data, { dec with values := rest })
    | .mismatch msg data :: rest => (some (.other msg), data, { dec with values := rest })
    | [] =>
      match dec.malformed with
      | some msg => (some (.other msg), zero, { dec with err := some (.other msg) })
      | none => (some .EOF, zero, { dec with err := some .EOF })

/-! ## Handlers -/

/-- Outcome of running a handler. -/
inductive Result (α : Type) where
  /-- The function returned `a`, leaving the world `s`. -/
  | returned (a : α) (s : World)
  /-- A run-time fault (nil pointer dereference) stopped the handler in world `s`. -/
  | panicked (s : World)
  /-- The fuel ran out inside a loop; `s` is the world reached so far. -/
  | timeout (s : World)
  deriving DecidableEq, Repr

/-- The world an outcome carries. -/
def Result.world {α : Type} : Result α → World
  | .returned _ s => s
  | .panicked s => s
  | .timeout s => s

/-- The `for key := range data.Contacts { contactId = key }` loop. -/
def lastKey (contactId : String) (visited : List (String × RawValue)) : String :=
  visited.foldl (fun _ kv => kv.1) contactId

/-- The decode loop of `getContactIdByEmail` (lines 137-149). -/
def contactLoop (env : Env) :
    Nat → Decoder ContactInfoByEmail → World → String → Result String
  | 0, _, s, _ => .timeout s
  | fuel + 1, dec, s, contactId =>
    match dec.Decode ContactInfoByEmail.zero with
    | (some .EOF, _, _) => .returned contactId s
    | (some (.other msg), data, dec1) =>
      let s1 := s.Fprintf "Decode failed with error %s\n" [.err msg]
      contactLoop env fuel dec1 s1 (lastKey contactId (env.rangeContacts data.Contacts))
    | (none, data, dec1) =>
      contactLoop env fuel dec1 s (lastKey contactId (env.rangeContacts data.Contacts))

/-- Lines 119-151. The error of `http.NewRequest` is overwritten unread, so a
nil request reaches `req.SetBasicAuth`, which faults on it. -/
def getContactIdByEmail (env : Env) (fuel : Nat) (s : World) (_r : Request)
    (contactEmail : String) : Result String :=
  let url := env.mauticURL ++ "api/contacts?search=email:+" ++ contactEmail
  match env.NewRequest url with
  | false => .panicked s
  | true =>
    let s := s.call (.Get url)
    let contactId := ""
    match env.Do url with
    | .error e =>
      .returned contactId
        ((s.WriteHeader 401).Fprintf "Mautic HTTP request failed with error %s\n" [.err e])
    | .ok bodyText => contactLoop env fuel (NewDecoder (env.scanContacts bodyText)) s contactId

/-- Line 101: `SegmentAndID{false, value.Name, strconv.Itoa(value.ID)}`. -/
def curSegmentAndID (value : Segment) : SegmentAndID :=
  ⟨false, value.Name, Itoa value.ID⟩

/-- The `for _, value := range data.Lists { ... append ... }` loop (lines 100-103). -/
def appendSegments (segmentAndIDs : List SegmentAndID) (visited : List (String × Segment)) :
    List SegmentAndID :=
  visited.foldl (fun acc kv => acc ++ [curSegmentAndID kv.2]) segmentAndIDs

/-- The decode loop of `getSegmentAndIdInfo` (lines 92-111). `json.Marshal` of a
slice of `SegmentAndID` cannot fail, so its error branch is not reachable. -/
def segmentLoop (env : Env) :
    Nat → Decoder SegmentData → World → List SegmentAndID → Result Unit
  | 0, _, s, _ => .timeout s
  | fuel + 1, dec, s, segmentAndIDs =>
    match dec.Decode SegmentData.zero with
    | (some .EOF, _, _) => .returned () s
    | (some (.other msg), data, dec1) =>
      let s1 := s.Fprintf "Decode failed with error %s\n" [.err msg]
      let segmentAndIDs := appendSegments segmentAndIDs (env.rangeLists data.Lists)
      segmentLoop env fuel dec1 (s1.Fprintf "%s \n" [.marshalled segmentAndIDs]) segmentAndIDs
    | (none, data, dec1) =>
      let segmentAndIDs := appendSegments segmentAndIDs (env.rangeLists data.Lists)
      segmentLoop env fuel dec1 (s.Fprintf "%s \n" [.marshalled segmentAndIDs]) segmentAndIDs

/-- Lines 76-112 of `getSegmentAndIdInfo`: the segment request and the if/else on
its error. As in `getContactIdByEmail`, a nil request faults in `req.SetBasicAuth`. -/
def fetchSegments (env : Env) (fuel : Nat) (s : World) : Result Unit :=
  let url := env.mauticURL ++ "api/segments"
  match env.NewRequest url with
  | false => .panicked s
  | true =>
    let s := s.call (.Get url)
    match env.Do url with
    | .error e =>
      .returned ()
        ((s.WriteHeader 401).Fprintf "Mautic HTTP request failed with error %s\n" [.err e])
    | .ok bodyText => segmentLoop env fuel (NewDecoder (env.scanSegments bodyText)) s []

/-- Lines 67-117. The match on a one-element list is the test
`len(contactEmailHeader) != 1` followed by `contactEmailHeader[0]`; the call of
`getContactIdByEmail` follows the if/else on the fetch error in both branches. -/
def getSegmentAndIdInfo (env : Env) (fuel : Nat) (s : World) (r : Request) : Result Unit :=
  let contactEmailHeader := Fields (r.Header.Get "Email")
  match contactEmailHeader with
  | [contactEmail] =>
    match fetchSegments env fuel s with
    | .returned _ s1 =>
      match getContactIdByEmail env fuel s1 r contactEmail with
      | .returned contactID s2 => .returned () (s2.Printf contactID)
      | .panicked s2 => .panicked s2
      | .timeout s2 => .timeout s2
    | .panicked s1 => .panicked s1
    | .timeout s1 => .timeout s1
  | _ =>
    .returned ()
      ((s.WriteHeader 400).Fprintf "Invalid Email header. Only one email is accepted" [])

/-- The function `keycloakAuth(fn)` returns (lines 155-204). Dereferencing a nil
`rptResult.Active` on line 196 is a run-time fault. -/
def keycloakAuth (env : Env) (fn : World → Request → Result Unit) (s : World) (r : Request) :
    Result Unit :=
  let s := s.HeaderAdd "Content-Type" "application/json"
  let s := s.HeaderAdd "Access-Control-Allow-Origin" "*"
  let s := s.HeaderAdd "Access-Control-Allow-Credentials" "true"
  let s := s.HeaderAdd "Access-Control-Allow-Headers" "Content-Type, Authorization, Email"
  let s := s.HeaderAdd "Access-Control-Allow-Methods" "POST, GET, OPTIONS, PUT, DELETE"
  if r.Method = "OPTIONS" then
    .returned () (s.Error "No Content" 204)
  else
    let authHeader := Fields (r.Header.Get "Authorization")
    if authHeader.length < 2 then
      .returned () ((s.WriteHeader 400).Fprintf "Invalid authorization header" [])
    else
      let token := authHeader.getD 1 ""
      let s := s.call .LoginClient
      match env.LoginClient with
      | .error e =>
        .returned () ((s.WriteHeader 401).Fprintf ("Keycloak Login failed:" ++ e) [])
      | .ok _ =>
        let s := s.call (.RetrospectToken token)
        match env.RetrospectToken token with
        | .error e =>
          .returned () ((s.WriteHeader 401).Fprintf ("Keycloak inspection failed:" ++ e) [])
        | .ok rptResult =>
          match rptResult.Active with
          | none => .panicked s
          | some false =>
            .returned () ((s.WriteHeader 401).Fprintf "Keycloak token is not active" [])
          | some true => fn s r

/-- The handler `main` registers for `/segments`, run on a fresh response writer. -/
def segmentsEndpoint (env : Env) (fuel : Nat) (r : Request) : Result Unit :=
  keycloakAuth env (getSegmentAndIdInfo env fuel) World.init r

/-! ## Vocabulary of the statements -/

/-- The request passes the auth gate: it is not a preflight, its `Authorization`
header has a second token, and login and introspection succeed with the active
flag set. -/
def PassesGate (env : Env) (r : Request) : Prop :=
  r.Method ≠ "OPTIONS" ∧
  2 ≤ (Fields (r.Header.Get "Authorization")).length ∧
  env.LoginClient = .ok () ∧
  env.RetrospectToken ((Fields (r.Header.Get "Authorization")).getD 1 "") = .ok ⟨some true⟩

/-- The gate turns the request away: it is not a preflight, its `Authorization`
header has a second token, and the login fails, or the introspection fails, or
the introspection reports the active flag false. -/
def GateRejects (env : Env) (r : Request) : Prop :=
  r.Method ≠ "OPTIONS" ∧
  2 ≤ (Fields (r.Header.Get "Authorization")).length ∧
  ((∃ e, env.LoginClient = .error e) ∨
    (env.LoginClient = .ok () ∧
      ∃ e, env.RetrospectToken ((Fields (r.Header.Get "Authorization")).getD 1 "") = .error e) ∨
    (env.LoginClient = .ok () ∧
      env.RetrospectToken ((Fields (r.Header.Get "Authorization")).getD 1 "") =
        .ok ⟨some false⟩))

/-- The headers lines 156-160 add to every response. -/
def corsHeader : Header :=
  ⟨[("Content-Type", "application/json"),
    ("Access-Control-Allow-Origin", "*"),
    ("Access-Control-Allow-Credentials", "true"),
    ("Access-Control-Allow-Headers", "Content-Type, Authorization, Email"),
    ("Access-Control-Allow-Methods", "POST, GET, OPTIONS, PUT, DELETE")]⟩

/-- The world in which `keycloakAuth` hands over to the wrapped handler. -/
def gateWorld (token : String) : World :=
  ⟨⟨corsHeader, none, []⟩, [.LoginClient, .RetrospectToken token], []⟩

/-- The array a write carries, when it is the write of line 110. -/
def Output.array? : Output → Option (List SegmentAndID)
  | .printf _ [.marshalled v] => some v
  | _ => none

/-- The marshalled arrays written to the response body, in order. -/
def arraysWritten (w : ResponseWriter) : List (List SegmentAndID) :=
  w.body.filterMap Output.array?

/-- The writer `w2` is `w1` after more writes, none of them a marshalled array:
same headers, a status line once written is kept, the body only grows. -/
def ResponseWriter.Extends (w1 w2 : ResponseWriter) : Prop :=
  w2.header = w1.header ∧ (∀ c, w1.status = some c → w2.status = some c) ∧
  ∃ rest, w2.body = w1.body ++ rest ∧ ∀ o ∈ rest, o.array? = none

/-- The writer accepts body writes: no status line yet, or status 200. -/
def ResponseWriter.Writable (w : ResponseWriter) : Prop :=
  w.status = none ∨ w.status = some 200

/-- Value of a decimal digit character. -/
def digitVal (c : Char) : Nat := c.toNat - 48

/-- The number a list of decimal digits denotes, most significant digit first. -/
def valOf (cs : List Char) : Nat := cs.foldl (fun v c => 10 * v + digitVal c) 0

/-! ## Sample inputs -/

/-- A published segment with the given id and name. -/
def sampleSegment (id : Int) (name : String) : Segment :=
  ⟨true, "2021-03-01T10:00:00Z", "2021-03-02T10:00:00Z", 1, "admin", 1, "admin", id, name,
    name, "null", [], false, false⟩

/-- A deployment in which the provider knows the token `good` as active, answers
`nil` without an active flag and reports every other token inactive; the
platform lists two segments and finds contact 42. -/
def sampleEnv : Env where
  mauticURL := "http://mautic/"
  NewRequest := fun _ => true
  Do := fun url => if url = "http://mautic/api/segments" then .ok "segments" else .ok "contacts"
  LoginClient := .ok ()
  RetrospectToken := fun token =>
    if token = "good" then .ok ⟨some true⟩
    else if token = "nil" then .ok ⟨none⟩
    else .ok ⟨some false⟩
  scanSegments := fun _ =>
    ⟨[.ok ⟨2, [("1", sampleSegment 7 "news"), ("2", sampleSegment (-12) "beta")]⟩], none⟩
  scanContacts := fun _ => ⟨[.ok ⟨"1", [("42", "null")]⟩], none⟩
  rangeLists := List.reverse
  rangeContacts := id

/-- The sample deployment with the segment request failing at the transport level. -/
def fetchFailsEnv : Env :=
  { sampleEnv with
    Do := fun url =>
      if url = "http://mautic/api/segments" then .error "connection refused"
      else .ok "contacts" }

/-- The sample deployment with a segment body cut off in the middle of a value. -/
def truncatedEnv : Env :=
  { sampleEnv with scanSegments := fun _ => ⟨[], some "unexpected EOF"⟩ }

/-- A request with the given method, `Authorization` header and `Email` header. -/
def sampleRequest (method authorization email : String) : Request :=
  ⟨method, ⟨[("Authorization", authorization), ("Email", email)]⟩⟩

/-! # Theorems -/

/-! ## Decimal text of integers -/

theorem digit_toNat (d : Nat) (h : d < 10) : (digit d).toNat = 48 + d := by
  interval_cases d <;> rfl

theorem valOf_snoc (cs : List Char) (c : Char) :
    valOf (cs ++ [c]) = 10 * valOf cs + digitVal c := by
  simp [valOf, List.foldl_append]

theorem valOf_decimal (fuel n : Nat) (h : n < fuel) : valOf (decimal fuel n) = n := by
  induction fuel generalizing n with
  | zero => omega
  | succ f ih =>
    unfold decimal
    split
    · rename_i hlt
      simp [valOf, digitVal, digit_toNat n hlt]
    · have hmod : n % 10 < 10 := Nat.mod_lt _ (by decide)
      rw [valOf_snoc, ih (n / 10) (by omega)]
      simp only [digitVal, digit_toNat _ hmod]
      omega

theorem decimal_ge (fuel n : Nat) : ∀ c ∈ decimal fuel n, 48 ≤ c.toNat := by
  induction fuel generalizing n with
  | zero => intro c hc; simp [decimal] at hc
  | succ f ih =>
    intro c hc
    unfold decimal at hc
    split at hc
    · rename_i hlt
      simp only [List.mem_singleton] at hc
      rw [hc, digit_toNat n hlt]; omega
    · have hmod : n % 10 < 10 := Nat.mod_lt _ (by decide)
      rcases List.mem_append.mp hc with h1 | h1
      · exact ih _ c h1
      · simp only [List.mem_singleton] at h1
        rw [h1, digit_toNat _ hmod]; omega

theorem decimal_ne_dash_cons (fuel n : Nat) (l : List Char) : decimal fuel n ≠ '-' :: l := by
  intro h
  have := decimal_ge fuel n '-' (by rw [h]; exact List.mem_cons_self _ _)
  revert this
  decide

/-- The decimal text determines the integer, negative integers included. -/
theorem Itoa_injective : Function.Injective Itoa := by
  intro i j h
  unfold Itoa at h
  split_ifs at h with hi hj hj
  · have h1 := congrArg String.data h
    have h2 : decimal (i.natAbs + 1) i.natAbs = decimal (j.natAbs + 1) j.natAbs :=
      List.tail_eq_of_cons_eq h1
    have h3 := congrArg valOf h2
    rw [valOf_decimal _ _ (Nat.lt_succ_self _), valOf_decimal _ _ (Nat.lt_succ_self _)] at h3
    omega
  · exact absurd (congrArg String.data h).symm (decimal_ne_dash_cons _ _ _)
  · exact absurd (congrArg String.data h) (decimal_ne_dash_cons _ _ _)
  · have h2 := congrArg String.data h
    have h3 := congrArg valOf h2
    rw [valOf_decimal _ _ (Nat.lt_succ_self _), valOf_decimal _ _ (Nat.lt_succ_self _)] at h3
    omega

/-! ## The projection loop -/

theorem appendSegments_eq (acc : List SegmentAndID) (visited : List (String × Segment)) :
    appendSegments acc visited = acc ++ visited.map (fun kv => curSegmentAndID kv.2) := by
  induction visited generalizing acc with
  | nil => simp [appendSegments]
  | cons kv rest ih =>
    have hstep : appendSegments acc (kv :: rest) =
        appendSegments (acc ++ [curSegmentAndID kv.2]) rest := rfl
    rw [hstep, ih]
    simp

/-! ## Response writer facts -/

theorem Header.Get_of_absent (h : Header) (key : String)
    (habs : ∀ kv ∈ h.entries, kv.1 ≠ key) : h.Get key = "" := by
  have hnone : h.entries.find? (fun kv => kv.1 == key) = none := by
    rw [List.find?_eq_none]
    intro kv hkv
    simpa using habs kv hkv
  simp [Header.Get, hnone]

theorem Extends_refl (w : ResponseWriter) : w.Extends w :=
  ⟨rfl, fun _ h => h, [], by simp, by simp⟩

theorem Extends_trans {w1 w2 w3 : ResponseWriter} (h12 : w1.Extends w2) (h23 : w2.Extends w3) :
    w1.Extends w3 := by
  obtain ⟨hh1, hs1, r1, hb1, hr1⟩ := h12
  obtain ⟨hh2, hs2, r2, hb2, hr2⟩ := h23
  refine ⟨hh2.trans hh1, fun c hc => hs2 c (hs1 c hc), r1 ++ r2, ?_, ?_⟩
  · rw [hb2, hb1, List.append_assoc]
  · intro o ho
    rcases List.mem_append.mp ho with h | h
    · exact hr1 o h
    · exact hr2 o h

theorem Extends_WriteHeader (w : ResponseWriter) (code : Nat) : w.Extends (w.WriteHeader code) := by
  unfold ResponseWriter.WriteHeader
  cases hst : w.status with
  | none => exact ⟨rfl, fun c hc => by simp [hst] at hc, [], by simp, by simp⟩
  | some c => exact Extends_refl w

theorem Extends_Write (w : ResponseWriter) (o : Output) (ho : o.array? = none) :
    w.Extends (w.Write o) := by
  unfold ResponseWriter.Write
  have h1 := Extends_WriteHeader w 200
  refine Extends_trans h1 ?_
  generalize w.WriteHeader 200 = w1
  dsimp only
  split
  · rename_i c hst
    split
    · exact ⟨rfl, fun c hc => hc, [o], rfl, by simpa using ho⟩
    · exact Extends_refl w1
  · exact Extends_refl w1

theorem Extends_Fprintf_err (w : ResponseWriter) (format msg : String) :
    w.Extends (w.Fprintf format [.err msg]) :=
  Extends_Write w _ rfl


theorem Writable_Fprintf (w : ResponseWriter) (format : String) (args : List Operand)
    (hw : w.Writable) :
    (w.Fprintf format args).Writable ∧
      (w.Fprintf format args).body.length = w.body.length + 1 := by
  obtain ⟨header, status, body⟩ := w
  rcases hw with h | h
  · simp only at h
    subst h
    exact ⟨Or.inr rfl, by simp [ResponseWriter.Fprintf, ResponseWriter.Write,
      ResponseWriter.WriteHeader, bodyAllowedForStatus]⟩
  · simp only at h
    subst h
    exact ⟨Or.inr rfl, by simp [ResponseWriter.Fprintf, ResponseWriter.Write,
      ResponseWriter.WriteHeader, bodyAllowedForStatus]⟩

/-! ## The decoder -/

/-- A decoder over input that ends in malformed text never reports `io.EOF`,
and stays such a decoder. -/
theorem Decode_of_malformed {α : Type} (dec : Decoder α) (zero : α)
    (hm : dec.malformed.isSome) (he : dec.err ≠ some .EOF) :
    (dec.Decode zero).1 ≠ some .EOF ∧ (dec.Decode zero).2.2.malformed.isSome ∧
      (dec.Decode zero).2.2.err ≠ some .EOF := by
  obtain ⟨values, malformed, err⟩ := dec
  cases err with
  | some e =>
    have he1 : e ≠ .EOF := fun h => he (by rw [h])
    simpa [Decoder.Decode] using ⟨he1, hm, he1⟩
  | none =>
    cases values with
    | nil =>
      cases malformed with
      | none => simp at hm
      | some msg => simp [Decoder.Decode]
    | cons v rest =>
      cases v with
      | ok data => simpa [Decoder.Decode] using hm
      | mismatch msg data => simpa [Decoder.Decode] using hm

/-- A decoder with no latched error over input that ends cleanly consumes one
value per call and reports `io.EOF` exactly when no value is left. -/
theorem Decode_of_clean {α : Type} (dec : Decoder α) (zero : α)
    (hm : dec.malformed = none) (he : dec.err = none) :
    (dec.values = [] ∧ (dec.Decode zero).1 = some .EOF) ∨
    ((dec.Decode zero).1 ≠ some .EOF ∧ (dec.Decode zero).2.2.malformed = none ∧
      (dec.Decode zero).2.2.err = none ∧
      (dec.Decode zero).2.2.values.length + 1 = dec.values.length) := by
  obtain ⟨values, malformed, err⟩ := dec
  simp only at hm he
  subst hm he
  cases values with
  | nil => left; simp [Decoder.Decode]
  | cons v rest =>
    right
    cases v with
    | ok data => simp [Decoder.Decode]
    | mismatch msg data => simp [Decoder.Decode]

/-! ## The decode loops -/

/-- Over a body that ends in malformed text the segment loop never leaves: for
every amount of fuel it is still running, and each iteration has written. -/
theorem segmentLoop_diverges (env : Env) (fuel : Nat) :
    ∀ (dec : Decoder SegmentData) (s : World) (acc : List SegmentAndID),
      dec.malformed.isSome → dec.err ≠ some .EOF → s.w.Writable →
      ∃ s', segmentLoop env fuel dec s acc = .timeout s' ∧
        s.w.body.length + fuel ≤ s'.w.body.length := by
  induction fuel with
  | zero => intro dec s acc _ _ _; exact ⟨s, rfl, by simp⟩
  | succ n ih =>
    intro dec s acc hm he hw
    obtain ⟨h1, h2, h3⟩ := Decode_of_malformed dec SegmentData.zero hm he
    unfold segmentLoop
    split
    · rename_i heq
      rw [heq] at h1
      exact absurd rfl h1
    · rename_i msg data dec1 heq
      rw [heq] at h2 h3
      have hw1 := Writable_Fprintf s.w "Decode failed with error %s\n" [.err msg] hw
      have hw2 := Writable_Fprintf (s.w.Fprintf "Decode failed with error %s\n" [.err msg])
        "%s \n" [.marshalled (appendSegments acc (env.rangeLists data.Lists))] hw1.1
      obtain ⟨s', hs', hlen⟩ := ih dec1
        ((s.Fprintf "Decode failed with error %s\n" [.err msg]).Fprintf "%s \n"
          [.marshalled (appendSegments acc (env.rangeLists data.Lists))])
        (appendSegments acc (env.rangeLists data.Lists)) h2 h3 hw2.1
      refine ⟨s', hs', ?_⟩
      have e2 := hw2.2
      have e1 := hw1.2
      simp only [World.Fprintf] at hlen e1 e2 ⊢
      omega
    · rename_i data dec1 heq
      rw [heq] at h2 h3
      have hw1 := Writable_Fprintf s.w "%s \n"
        [.marshalled (appendSegments acc (env.rangeLists data.Lists))] hw
      obtain ⟨s', hs', hlen⟩ := ih dec1
        (s.Fprintf "%s \n" [.marshalled (appendSegments acc (env.rangeLists data.Lists))])
        (appendSegments acc (env.rangeLists data.Lists)) h2 h3 hw1.1
      refine ⟨s', hs', ?_⟩
      have e1 := hw1.2
      simp only [World.Fprintf] at hlen e1 ⊢
      omega

/-- Over a body that ends cleanly the segment loop returns once the fuel
exceeds the number of values in the body. -/
theorem segmentLoop_returns (env : Env) (fuel : Nat) :
    ∀ (dec : Decoder SegmentData) (s : World) (acc : List SegmentAndID),
      dec.malformed = none → dec.err = none → dec.values.length < fuel →
      ∃ s', segmentLoop env fuel dec s acc = .returned () s' := by
  induction fuel with
  | zero => intro dec s acc _ _ h; omega
  | succ n ih =>
    intro dec s acc hm he hlen
    have hd := Decode_of_clean dec SegmentData.zero hm he
    unfold segmentLoop
    split
    · exact ⟨s, rfl⟩
    · rename_i msg data dec1 heq
      rw [heq] at hd
      rcases hd with ⟨_, h⟩ | ⟨_, h2, h3, h4⟩
      · simp at h
      · exact ih dec1 _ _ h2 h3 (by simp only at h4; omega)
    · rename_i data dec1 heq
      rw [heq] at hd
      rcases hd with ⟨_, h⟩ | ⟨_, h2, h3, h4⟩
      · simp at h
      · exact ih dec1 _ _ h2 h3 (by simp only at h4; omega)

/-- Over a body that ends cleanly the contact loop returns once the fuel
exceeds the number of values in the body. -/
theorem contactLoop_returns (env : Env) (fuel : Nat) :
    ∀ (dec : Decoder ContactInfoByEmail) (s : World) (contactId : String),
      dec.malformed = none → dec.err = none → dec.values.length < fuel →
      ∃ c s', contactLoop env fuel dec s contactId = .returned c s' := by
  induction fuel with
  | zero => intro dec s acc _ _ h; omega
  | succ n ih =>
    intro dec s acc hm he hlen
    have hd := Decode_of_clean dec ContactInfoByEmail.zero hm he
    unfold contactLoop
    split
    · exact ⟨acc, s, rfl⟩
    · rename_i msg data dec1 heq
      rw [heq] at hd
      rcases hd with ⟨_, h⟩ | ⟨_, h2, h3, h4⟩
      · simp at h
      · exact ih dec1 _ _ h2 h3 (by simp only at h4; omega)
    · rename_i data dec1 heq
      rw [heq] at hd
      rcases hd with ⟨_, h⟩ | ⟨_, h2, h3, h4⟩
      · simp at h
      · exact ih dec1 _ _ h2 h3 (by simp only at h4; omega)

/-- The contact loop only adds error lines to the response. -/
theorem contactLoop_Extends (env : Env) (fuel : Nat) :
    ∀ (dec : Decoder ContactInfoByEmail) (s : World) (contactId : String),
      s.w.Extends (contactLoop env fuel dec s contactId).world.w := by
  induction fuel with
  | zero => intro dec s contactId; exact Extends_refl _
  | succ n ih =>
    intro dec s contactId
    unfold contactLoop
    split
    · exact Extends_refl _
    · rename_i msg data dec1 heq
      exact Extends_trans (Extends_Fprintf_err s.w _ msg) (ih dec1 _ _)
    · exact ih _ _ _

/-- Contact resolution only adds error lines to the response. -/
theorem getContactIdByEmail_Extends (env : Env) (fuel : Nat) (s : World) (r : Request)
    (contactEmail : String) :
    s.w.Extends (getContactIdByEmail env fuel s r contactEmail).world.w := by
  unfold getContactIdByEmail
  dsimp only
  split
  · exact Extends_refl _
  · split
    · rename_i e heq
      exact Extends_trans (Extends_WriteHeader s.w 401) (Extends_Fprintf_err _ _ e)
    · exact contactLoop_Extends env fuel _ (s.call _) ""


/-! ## Handler facts -/

/-- A request that passes the gate reaches the wrapped handler, in `gateWorld`. -/
theorem keycloakAuth_of_PassesGate (env : Env) (fn : World → Request → Result Unit)
    (r : Request) (h : PassesGate env r) :
    keycloakAuth env fn World.init r =
      fn (gateWorld ((Fields (r.Header.Get "Authorization")).getD 1 "")) r := by
  obtain ⟨hm, ha, hl, hr⟩ := h
  have hlen : ¬ (Fields (r.Header.Get "Authorization")).length < 2 := by omega
  simp only [keycloakAuth, if_neg hm, if_neg hlen, hl, hr]
  rfl

theorem keycloakAuth_short_authorization (env : Env) (fn : World → Request → Result Unit)
    (r : Request) (hm : r.Method ≠ "OPTIONS")
    (hlen : (Fields (r.Header.Get "Authorization")).length < 2) :
    keycloakAuth env fn World.init r =
      .returned ()
        ⟨⟨corsHeader, some 400, [.printf "Invalid authorization header" []]⟩, [], []⟩ := by
  simp only [keycloakAuth, if_neg hm, if_pos hlen]
  rfl

/-- A request the gate turns away is answered 401 without the wrapped handler:
the outcome is a return with status 401 and without any platform request,
whatever `fn` is. -/
theorem keycloakAuth_of_GateRejects (env : Env) (fn : World → Request → Result Unit)
    (r : Request) (h : GateRejects env r) :
    ∃ s, keycloakAuth env fn World.init r = .returned () s ∧ s.w.status = some 401 ∧
      ∀ url, Call.Get url ∉ s.calls := by
  obtain ⟨hm, ha, hcase⟩ := h
  have hlen : ¬ (Fields (r.Header.Get "Authorization")).length < 2 := by omega
  rcases hcase with ⟨e, hl⟩ | ⟨hl, e, hr⟩ | ⟨hl, hr⟩
  · have hrun : keycloakAuth env fn World.init r = .returned ()
        ⟨⟨corsHeader, some 401, [.printf ("Keycloak Login failed:" ++ e) []]⟩,
          [.LoginClient], []⟩ := by
      simp only [keycloakAuth, if_neg hm, if_neg hlen, hl]
      rfl
    refine ⟨_, hrun, rfl, ?_⟩
    intro url hmem
    simp at hmem
  · have hrun : keycloakAuth env fn World.init r = .returned ()
        ⟨⟨corsHeader, some 401, [.printf ("Keycloak inspection failed:" ++ e) []]⟩,
          [.LoginClient,
            .RetrospectToken ((Fields (r.Header.Get "Authorization")).getD 1 "")], []⟩ := by
      simp only [keycloakAuth, if_neg hm, if_neg hlen, hl, hr]
      rfl
    refine ⟨_, hrun, rfl, ?_⟩
    intro url hmem
    simp at hmem
  · have hrun : keycloakAuth env fn World.init r = .returned ()
        ⟨⟨corsHeader, some 401, [.printf "Keycloak token is not active" []]⟩,
          [.LoginClient,
            .RetrospectToken ((Fields (r.Header.Get "Authorization")).getD 1 "")], []⟩ := by
      simp only [keycloakAuth, if_neg hm, if_neg hlen, hl, hr]
      rfl
    refine ⟨_, hrun, rfl, ?_⟩
    intro url hmem
    simp at hmem

theorem getSegmentAndIdInfo_bad_email (env : Env) (fuel : Nat) (s : World) (r : Request)
    (h : (Fields (r.Header.Get "Email")).length ≠ 1) :
    getSegmentAndIdInfo env fuel s r =
      .returned ()
        ((s.WriteHeader 400).Fprintf "Invalid Email header. Only one email is accepted" []) := by
  unfold getSegmentAndIdInfo
  dsimp only
  split
  · rename_i email heq
    rw [heq] at h
    simp at h
  · rfl

theorem fetchSegments_single (env : Env) (n : Nat) (s : World) (bodyText : String)
    (data : SegmentData)
    (hreq : env.NewRequest (env.mauticURL ++ "api/segments") = true)
    (hdo : env.Do (env.mauticURL ++ "api/segments") = .ok bodyText)
    (hscan : env.scanSegments bodyText = ⟨[.ok data], none⟩) :
    fetchSegments env (n + 2) s =
      .returned () ((s.call (.Get (env.mauticURL ++ "api/segments"))).Fprintf "%s \n"
        [.marshalled (appendSegments [] (env.rangeLists data.Lists))]) := by
  unfold fetchSegments
  simp only [hreq, hdo, hscan]
  simp [segmentLoop, NewDecoder, Decoder.Decode]

theorem getSegmentAndIdInfo_world_w (env : Env) (fuel : Nat) (s s1 : World) (r : Request)
    (email : String) (hemail : Fields (r.Header.Get "Email") = [email])
    (hfetch : fetchSegments env fuel s = .returned () s1) :
    (getSegmentAndIdInfo env fuel s r).world.w =
      (getContactIdByEmail env fuel s1 r email).world.w := by
  unfold getSegmentAndIdInfo
  simp only [hemail, hfetch]
  cases getContactIdByEmail env fuel s1 r email <;> rfl

theorem lastKey_of_length_le_one (visited contacts : List (String × RawValue))
    (hperm : visited.Perm contacts) (hlen : contacts.length ≤ 1) :
    lastKey "" visited = (contacts.map Prod.fst).headD "" := by
  match contacts, hlen with
  | [], _ =>
    rw [List.Perm.eq_nil hperm]
    rfl
  | [kv], _ =>
    rw [List.perm_singleton.mp hperm]
    rfl
  | _ :: _ :: _, h => simp at h


/-- The segment request returns when it fails at the transport level or when
its body ends cleanly and the fuel exceeds the number of values in it. -/
theorem fetchSegments_returns (env : Env) (fuel : Nat) (s : World)
    (hreq : env.NewRequest (env.mauticURL ++ "api/segments") = true)
    (hseg : ∀ b, env.Do (env.mauticURL ++ "api/segments") = .ok b →
      (env.scanSegments b).malformed = none ∧ (env.scanSegments b).values.length < fuel) :
    ∃ s', fetchSegments env fuel s = .returned () s' := by
  unfold fetchSegments
  simp only [hreq]
  split
  · exact ⟨_, rfl⟩
  · rename_i b heq
    obtain ⟨h1, h2⟩ := hseg b heq
    exact segmentLoop_returns env fuel _ _ _ h1 rfl h2

/-- Contact resolution returns when the request fails at the transport level or
when its body ends cleanly and the fuel exceeds the number of values in it. -/
theorem getContactIdByEmail_returns (env : Env) (fuel : Nat) (s : World) (r : Request)
    (email : String)
    (hreq : env.NewRequest (env.mauticURL ++ "api/contacts?search=email:+" ++ email) = true)
    (hcon : ∀ b, env.Do (env.mauticURL ++ "api/contacts?search=email:+" ++ email) = .ok b →
      (env.scanContacts b).malformed = none ∧ (env.scanContacts b).values.length < fuel) :
    ∃ c s', getContactIdByEmail env fuel s r email = .returned c s' := by
  unfold getContactIdByEmail
  simp only [hreq]
  split
  · exact ⟨_, _, rfl⟩
  · rename_i b heq
    obtain ⟨h1, h2⟩ := hcon b heq
    exact contactLoop_returns env fuel _ _ _ h1 rfl h2

/-- The handler returns whenever both requests can be built and both upstream
bodies end cleanly, given fuel beyond the number of JSON values in each. -/
theorem getSegmentAndIdInfo_returns (env : Env) (fuel : Nat) (s : World) (r : Request)
    (hreq : ∀ url, env.NewRequest url = true)
    (hseg : ∀ b, env.Do (env.mauticURL ++ "api/segments") = .ok b →
      (env.scanSegments b).malformed = none ∧ (env.scanSegments b).values.length < fuel)
    (hcon : ∀ email b,
      env.Do (env.mauticURL ++ "api/contacts?search=email:+" ++ email) = .ok b →
      (env.scanContacts b).malformed = none ∧ (env.scanContacts b).values.length < fuel) :
    ∃ s', getSegmentAndIdInfo env fuel s r = .returned () s' := by
  unfold getSegmentAndIdInfo
  dsimp only
  split
  · rename_i email heq
    obtain ⟨s1, hs1⟩ := fetchSegments_returns env fuel s (hreq _) hseg
    obtain ⟨c, s2, hs2⟩ := getContactIdByEmail_returns env fuel s1 r email (hreq _) (hcon email)
    rw [hs1]
    simp only [hs2]
    exact ⟨_, rfl⟩
  · exact ⟨_, rfl⟩

/-- The handler never returns when the segment body ends in malformed text: for
every amount of fuel it is still inside the segment loop, and the body has grown
by at least one write per iteration. -/
theorem getSegmentAndIdInfo_diverges (env : Env) (fuel : Nat) (s : World) (r : Request)
    (email bodyText : String)
    (hemail : Fields (r.Header.Get "Email") = [email])
    (hreq : env.NewRequest (env.mauticURL ++ "api/segments") = true)
    (hdo : env.Do (env.mauticURL ++ "api/segments") = .ok bodyText)
    (hmal : (env.scanSegments bodyText).malformed.isSome)
    (hw : s.w.Writable) :
    ∃ s', getSegmentAndIdInfo env fuel s r = .timeout s' ∧
      s.w.body.length + fuel ≤ s'.w.body.length := by
  obtain ⟨s', hs', hlen⟩ := segmentLoop_diverges env fuel
    (NewDecoder (env.scanSegments bodyText)) (s.call (.Get (env.mauticURL ++ "api/segments"))) []
    hmal (by simp [NewDecoder]) hw
  have hfetch : fetchSegments env fuel s = .timeout s' := by
    unfold fetchSegments
    simp only [hreq, hdo]
    exact hs'
  refine ⟨s', ?_, hlen⟩
  unfold getSegmentAndIdInfo
  simp only [hemail, hfetch]


/-! ## Auth gate -/

/-- C1: a request that is not a preflight and carries at least two tokens in
`Authorization`, for which login and introspection succeed with the active flag
false, is answered 401 "Keycloak token is not active". The outcome is the same
for every wrapped handler `fn`, and the only outbound calls are the login and
the introspection: the handler is not invoked and no platform request is made. -/
theorem keycloakAuth_inactive_token_unauthorized (env : Env)
    (fn : World → Request → Result Unit) (r : Request)
    (hm : r.Method ≠ "OPTIONS")
    (ha : 2 ≤ (Fields (r.Header.Get "Authorization")).length)
    (hlogin : env.LoginClient = .ok ())
    (hrpt : env.RetrospectToken ((Fields (r.Header.Get "Authorization")).getD 1 "") =
      .ok ⟨some false⟩) :
    keycloakAuth env fn World.init r =
      .returned () ⟨⟨corsHeader, some 401, [.printf "Keycloak token is not active" []]⟩,
        [.LoginClient, .RetrospectToken ((Fields (r.Header.Get "Authorization")).getD 1 "")],
        []⟩ := by
  have hlen : ¬ (Fields (r.Header.Get "Authorization")).length < 2 := by omega
  simp only [keycloakAuth, if_neg hm, if_neg hlen, hlogin, hrpt]
  rfl

theorem keycloakAuth_inactive_token_unauthorized_witness :
    keycloakAuth sampleEnv (getSegmentAndIdInfo sampleEnv 2) World.init
        (sampleRequest "GET" "Bearer expired" "a@b.c") =
      .returned () ⟨⟨corsHeader, some 401, [.printf "Keycloak token is not active" []]⟩,
        [.LoginClient, .RetrospectToken "expired"], []⟩ :=
  keycloakAuth_inactive_token_unauthorized sampleEnv (getSegmentAndIdInfo sampleEnv 2)
    (sampleRequest "GET" "Bearer expired" "a@b.c") (by decide) (by decide) rfl rfl

/-- C2: a request that is not a preflight and whose `Authorization` header is
missing or has fewer than two tokens is answered 400 "Invalid authorization
header". The outcome is the same for every wrapped handler `fn` and the list of
outbound calls is empty: no login, no introspection, no platform request. -/
theorem keycloakAuth_invalid_authorization_header (env : Env)
    (fn : World → Request → Result Unit) (r : Request)
    (hm : r.Method ≠ "OPTIONS")
    (ha : (∀ kv ∈ r.Header.entries, kv.1 ≠ "Authorization") ∨
      (Fields (r.Header.Get "Authorization")).length < 2) :
    keycloakAuth env fn World.init r =
      .returned ()
        ⟨⟨corsHeader, some 400, [.printf "Invalid authorization header" []]⟩, [], []⟩ := by
  have hlen : (Fields (r.Header.Get "Authorization")).length < 2 := by
    rcases ha with habs | hlt
    · rw [Header.Get_of_absent _ _ habs]; decide
    · exact hlt
  exact keycloakAuth_short_authorization env fn r hm hlen

theorem keycloakAuth_invalid_authorization_header_witness :
    keycloakAuth sampleEnv (getSegmentAndIdInfo sampleEnv 2) World.init
        (sampleRequest "GET" "Bearer" "a@b.c") =
      .returned ()
        ⟨⟨corsHeader, some 400, [.printf "Invalid authorization header" []]⟩, [], []⟩ :=
  keycloakAuth_invalid_authorization_header sampleEnv (getSegmentAndIdInfo sampleEnv 2)
    (sampleRequest "GET" "Bearer" "a@b.c") (by decide) (Or.inr (by decide))

/-- C3, evaluated: on an `OPTIONS` request the answer does not carry the
`Content-Type: application/json` that line 156 adds to every response.
`http.Error` on line 163 replaces the value, so the header reads
`text/plain; charset=utf-8`. -/
theorem options_content_type_not_json :
    (sampleRequest "OPTIONS" "" "").Method = "OPTIONS" ∧
    ("Content-Type", "application/json") ∉
      (keycloakAuth sampleEnv (getSegmentAndIdInfo sampleEnv 2) World.init
        (sampleRequest "OPTIONS" "" "")).world.w.header.entries ∧
    (keycloakAuth sampleEnv (getSegmentAndIdInfo sampleEnv 2) World.init
        (sampleRequest "OPTIONS" "" "")).world.w.header.Get "Content-Type" =
      "text/plain; charset=utf-8" := by
  decide

/-- What the preflight branch computes: every `OPTIONS` request, whatever its
headers, is answered 204 with the four `Access-Control-*` headers and no
outbound call, the same for every wrapped handler `fn`. The `Content-Type`
added on line 156 is gone: `http.Error` has put `text/plain; charset=utf-8` and
`X-Content-Type-Options: nosniff` in its place. -/
theorem keycloakAuth_options_preflight (env : Env) (fn : World → Request → Result Unit)
    (r : Request) (hm : r.Method = "OPTIONS") :
    keycloakAuth env fn World.init r =
      .returned () ⟨⟨⟨[("Access-Control-Allow-Origin", "*"),
          ("Access-Control-Allow-Credentials", "true"),
          ("Access-Control-Allow-Headers", "Content-Type, Authorization, Email"),
          ("Access-Control-Allow-Methods", "POST, GET, OPTIONS, PUT, DELETE"),
          ("Content-Type", "text/plain; charset=utf-8"),
          ("X-Content-Type-Options", "nosniff")]⟩, some 204, []⟩, [], []⟩ := by
  simp only [keycloakAuth, if_pos hm]
  rfl

theorem keycloakAuth_options_preflight_witness :
    keycloakAuth sampleEnv (getSegmentAndIdInfo sampleEnv 2) World.init
        (sampleRequest "OPTIONS" "Bearer good" "a@b.c") =
      .returned () ⟨⟨⟨[("Access-Control-Allow-Origin", "*"),
          ("Access-Control-Allow-Credentials", "true"),
          ("Access-Control-Allow-Headers", "Content-Type, Authorization, Email"),
          ("Access-Control-Allow-Methods", "POST, GET, OPTIONS, PUT, DELETE"),
          ("Content-Type", "text/plain; charset=utf-8"),
          ("X-Content-Type-Options", "nosniff")]⟩, some 204, []⟩, [], []⟩ :=
  keycloakAuth_options_preflight sampleEnv (getSegmentAndIdInfo sampleEnv 2)
    (sampleRequest "OPTIONS" "Bearer good" "a@b.c") rfl

/-- C8, evaluated: with login and introspection succeeding and the active
pointer nil, the dereference on line 196 faults. No status line and no body
have been written at that point, so the request is not answered 401. -/
theorem keycloakAuth_nil_active_panics :
    segmentsEndpoint sampleEnv 2 (sampleRequest "GET" "Bearer nil" "a@b.c") =
      .panicked ⟨⟨corsHeader, none, []⟩, [.LoginClient, .RetrospectToken "nil"], []⟩ := by
  decide

/-! ## Request handler -/

/-- C5, as stated, fails: with an empty `Email` header and a token the provider
reports inactive, the gate answers 401 before the header is looked at. -/
theorem bad_email_inactive_token_unauthorized :
    Fields ((sampleRequest "GET" "Bearer expired" "").Header.Get "Email") = [] ∧
    (segmentsEndpoint sampleEnv 2 (sampleRequest "GET" "Bearer expired" "")).world.w.status =
      some 401 := by
  decide

/-- C5, amended: for a request that is not a preflight and whose `Email` header
has zero or at least two tokens, the status is 400 when the `Authorization`
header has fewer than two tokens or the request passes the gate, and 401 when
the gate turns it away (login fails, introspection fails, or the active flag is
false). In each of these cases the handler returns and no platform request is
made. -/
theorem bad_email_status (env : Env) (fuel : Nat) (r : Request)
    (hm : r.Method ≠ "OPTIONS")
    (hemail : (Fields (r.Header.Get "Email")).length ≠ 1) :
    ((Fields (r.Header.Get "Authorization")).length < 2 ∨ PassesGate env r →
      ∃ s, segmentsEndpoint env fuel r = .returned () s ∧ s.w.status = some 400 ∧
        ∀ url, Call.Get url ∉ s.calls) ∧
    (GateRejects env r →
      ∃ s, segmentsEndpoint env fuel r = .returned () s ∧ s.w.status = some 401 ∧
        ∀ url, Call.Get url ∉ s.calls) := by
  constructor
  · intro hauth
    rcases hauth with hshort | hgate
    · refine ⟨_, keycloakAuth_short_authorization env _ r hm hshort, rfl, ?_⟩
      intro url h
      simp at h
    · have hrun : segmentsEndpoint env fuel r = .returned ()
          (((gateWorld ((Fields (r.Header.Get "Authorization")).getD 1 "")).WriteHeader
            400).Fprintf "Invalid Email header. Only one email is accepted" []) := by
        unfold segmentsEndpoint
        rw [keycloakAuth_of_PassesGate env _ r hgate]
        exact getSegmentAndIdInfo_bad_email env fuel _ r hemail
      refine ⟨_, hrun, rfl, ?_⟩
      intro url h
      simp [gateWorld, World.Fprintf, World.WriteHeader] at h
  · intro hrej
    exact keycloakAuth_of_GateRejects env _ r hrej

theorem bad_email_status_witness :
    (∃ s, segmentsEndpoint sampleEnv 2 (sampleRequest "GET" "Bearer good" "a@b.c x@y.z") =
        .returned () s ∧ s.w.status = some 400 ∧ ∀ url, Call.Get url ∉ s.calls) ∧
    (∃ s, segmentsEndpoint sampleEnv 2 (sampleRequest "GET" "Bearer expired" "") =
        .returned () s ∧ s.w.status = some 401 ∧ ∀ url, Call.Get url ∉ s.calls) :=
  ⟨(bad_email_status sampleEnv 2 (sampleRequest "GET" "Bearer good" "a@b.c x@y.z")
      (by decide) (by decide)).1 (Or.inr ⟨by decide, by decide, rfl, rfl⟩),
   (bad_email_status sampleEnv 2 (sampleRequest "GET" "Bearer expired" "")
      (by decide) (by decide)).2 ⟨by decide, by decide, Or.inr (Or.inr ⟨rfl, rfl⟩)⟩⟩

/-- C7, evaluated: when the segment request fails at the transport level the
handler writes 401 and the error line, and then still calls
`getContactIdByEmail`: the contact search is requested and the resolved id 42 is
printed. -/
theorem fetch_failure_still_resolves_contact :
    segmentsEndpoint fetchFailsEnv 2 (sampleRequest "GET" "Bearer good" "a@b.c") =
      .returned () ⟨⟨corsHeader, some 401,
          [.printf "Mautic HTTP request failed with error %s\n" [.err "connection refused"]]⟩,
        [.LoginClient, .RetrospectToken "good", .Get "http://mautic/api/segments",
          .Get "http://mautic/api/contacts?search=email:+a@b.c"],
        ["42"]⟩ := by
  decide


/-- C4: for a request that passes the gate with a single-token `Email` header,
when the segment request succeeds and its body is one object that decodes
without error, exactly one array is written to the response; it is the first
write, the status is 200, the array has as many elements as `lists` has entries
and is a permutation of the image of the segments under `curSegmentAndID`. This
holds whatever the contact search does afterwards. -/
theorem segments_response_array (env : Env) (fuel : Nat) (r : Request)
    (email bodyText : String) (data : SegmentData)
    (hgate : PassesGate env r)
    (hemail : Fields (r.Header.Get "Email") = [email])
    (hreq : env.NewRequest (env.mauticURL ++ "api/segments") = true)
    (hdo : env.Do (env.mauticURL ++ "api/segments") = .ok bodyText)
    (hscan : env.scanSegments bodyText = ⟨[.ok data], none⟩)
    (hperm : ∀ l, (env.rangeLists l).Perm l)
    (hfuel : 2 ≤ fuel) :
    ∃ arr : List SegmentAndID,
      arraysWritten (segmentsEndpoint env fuel r).world.w = [arr] ∧
      (segmentsEndpoint env fuel r).world.w.body.head? =
        some (.printf "%s \n" [.marshalled arr]) ∧
      (segmentsEndpoint env fuel r).world.w.status = some 200 ∧
      arr.length = data.Lists.length ∧
      arr.Perm (data.Lists.map (fun kv => curSegmentAndID kv.2)) := by
  obtain ⟨n, rfl⟩ : ∃ n, fuel = n + 2 := ⟨fuel - 2, by omega⟩
  have hend : segmentsEndpoint env (n + 2) r = getSegmentAndIdInfo env (n + 2)
      (gateWorld ((Fields (r.Header.Get "Authorization")).getD 1 "")) r :=
    keycloakAuth_of_PassesGate env _ r hgate
  have hfetch := fetchSegments_single env n
    (gateWorld ((Fields (r.Header.Get "Authorization")).getD 1 "")) bodyText data hreq hdo hscan
  have hw := getSegmentAndIdInfo_world_w env (n + 2) _ _ r email hemail hfetch
  obtain ⟨_, hs, rest, hb, hr⟩ := getContactIdByEmail_Extends env (n + 2)
    (((gateWorld ((Fields (r.Header.Get "Authorization")).getD 1 "")).call
      (.Get (env.mauticURL ++ "api/segments"))).Fprintf "%s \n"
        [.marshalled (appendSegments [] (env.rangeLists data.Lists))]) r email
  rw [hend, hw]
  have hb1 : (getContactIdByEmail env (n + 2)
      (((gateWorld ((Fields (r.Header.Get "Authorization")).getD 1 "")).call
        (.Get (env.mauticURL ++ "api/segments"))).Fprintf "%s \n"
          [.marshalled (appendSegments [] (env.rangeLists data.Lists))]) r email).world.w.body =
      .printf "%s \n" [.marshalled (appendSegments [] (env.rangeLists data.Lists))] :: rest :=
    hb
  have hnil : rest.filterMap Output.array? = [] := by
    rw [List.filterMap_eq_nil_iff]
    exact hr
  refine ⟨appendSegments [] (env.rangeLists data.Lists), ?_, ?_, hs 200 rfl, ?_, ?_⟩
  · unfold arraysWritten
    rw [hb1, List.filterMap_cons]
    simp [Output.array?, hnil]
  · rw [hb1]
    rfl
  · rw [appendSegments_eq]
    simpa using (hperm data.Lists).length_eq
  · rw [appendSegments_eq]
    simpa using (hperm data.Lists).map (fun kv => curSegmentAndID kv.2)

theorem segments_response_array_witness :
    ∃ arr : List SegmentAndID,
      arraysWritten (segmentsEndpoint sampleEnv 2
        (sampleRequest "GET" "Bearer good" "a@b.c")).world.w = [arr] ∧
      (segmentsEndpoint sampleEnv 2
        (sampleRequest "GET" "Bearer good" "a@b.c")).world.w.body.head? =
        some (.printf "%s \n" [.marshalled arr]) ∧
      (segmentsEndpoint sampleEnv 2
        (sampleRequest "GET" "Bearer good" "a@b.c")).world.w.status = some 200 ∧
      arr.length = 2 ∧
      arr.Perm [⟨false, "news", "7"⟩, ⟨false, "beta", "-12"⟩] :=
  segments_response_array sampleEnv 2 (sampleRequest "GET" "Bearer good" "a@b.c") "a@b.c"
    "segments" ⟨2, [("1", sampleSegment 7 "news"), ("2", sampleSegment (-12) "beta")]⟩
    ⟨by decide, by decide, rfl, rfl⟩ (by decide) rfl rfl rfl List.reverse_perm (Nat.le_refl 2)

/-- C6: when the contact search succeeds and its body is one object that decodes
without error and holds at most one contact, `getContactIdByEmail` returns the
key of that contact, or the empty string when there is none. The response
writer is left as it was found: the only change to the world is the recorded
search request. -/
theorem getContactIdByEmail_sole_key (env : Env) (fuel : Nat) (s : World) (r : Request)
    (email bodyText : String) (data : ContactInfoByEmail)
    (hreq : env.NewRequest (env.mauticURL ++ "api/contacts?search=email:+" ++ email) = true)
    (hdo : env.Do (env.mauticURL ++ "api/contacts?search=email:+" ++ email) = .ok bodyText)
    (hscan : env.scanContacts bodyText = ⟨[.ok data], none⟩)
    (hlen : data.Contacts.length ≤ 1)
    (hperm : ∀ l, (env.rangeContacts l).Perm l)
    (hfuel : 2 ≤ fuel) :
    ∃ s', getContactIdByEmail env fuel s r email =
        .returned ((data.Contacts.map Prod.fst).headD "") s' ∧
      s'.w = s.w ∧ s'.stdout = s.stdout ∧
      s'.calls = s.calls ++ [.Get (env.mauticURL ++ "api/contacts?search=email:+" ++ email)] := by
  obtain ⟨n, rfl⟩ : ∃ n, fuel = n + 2 := ⟨fuel - 2, by omega⟩
  refine ⟨s.call (.Get (env.mauticURL ++ "api/contacts?search=email:+" ++ email)), ?_, rfl, rfl,
    rfl⟩
  unfold getContactIdByEmail
  simp only [hreq, hdo, hscan]
  simp only [contactLoop, NewDecoder, Decoder.Decode]
  rw [lastKey_of_length_le_one _ _ (hperm data.Contacts) hlen]

theorem getContactIdByEmail_sole_key_witness :
    ∃ s', getContactIdByEmail sampleEnv 2 (gateWorld "good")
        (sampleRequest "GET" "Bearer good" "a@b.c") "a@b.c" = .returned "42" s' ∧
      s'.w = (gateWorld "good").w ∧ s'.stdout = (gateWorld "good").stdout ∧
      s'.calls = (gateWorld "good").calls ++
        [.Get (sampleEnv.mauticURL ++ "api/contacts?search=email:+" ++ "a@b.c")] :=
  getContactIdByEmail_sole_key sampleEnv 2 (gateWorld "good")
    (sampleRequest "GET" "Bearer good" "a@b.c") "a@b.c" "contacts" ⟨"1", [("42", "null")]⟩
    rfl rfl rfl (by decide) (fun l => List.Perm.refl l) (Nat.le_refl 2)

/-- C9: when the segments of a decoded `lists` mapping have pairwise distinct
ids, the entries the projection loop produces from it, in whatever order the
range statement visits the mapping, have pairwise distinct `SegmentID` strings;
`Itoa` is injective on all integers. -/
theorem projection_preserves_distinct_ids (env : Env) (lists : List (String × Segment))
    (hperm : (env.rangeLists lists).Perm lists)
    (hid : (lists.map (fun kv => kv.2.ID)).Nodup) :
    ((appendSegments [] (env.rangeLists lists)).map (fun e => e.SegmentID)).Nodup ∧
      Function.Injective Itoa := by
  refine ⟨?_, Itoa_injective⟩
  have hvis : ((env.rangeLists lists).map (fun kv => kv.2.ID)).Nodup :=
    (List.Perm.nodup_iff (hperm.map _)).mpr hid
  rw [appendSegments_eq]
  have hmap : (([] : List SegmentAndID) ++
      (env.rangeLists lists).map (fun kv => curSegmentAndID kv.2)).map (fun e => e.SegmentID) =
      ((env.rangeLists lists).map (fun kv => kv.2.ID)).map Itoa := by
    simp [curSegmentAndID, Function.comp_def]
  rw [hmap]
  exact List.Nodup.map Itoa_injective hvis

theorem projection_preserves_distinct_ids_witness :
    ((appendSegments [] (sampleEnv.rangeLists
        [("1", sampleSegment 7 "news"), ("2", sampleSegment (-12) "beta")])).map
      (fun e => e.SegmentID)).Nodup ∧ Function.Injective Itoa :=
  projection_preserves_distinct_ids sampleEnv
    [("1", sampleSegment 7 "news"), ("2", sampleSegment (-12) "beta")]
    (List.reverse_perm _) (by decide)

/-- C10, evaluated: with a segment body cut off in the middle of a value the
decoder returns the same error on every call, the loop has no exit for it, and
the handler never returns: whatever the fuel, the run is still inside the loop
and the response body holds at least that many writes. -/
theorem truncated_segments_body_never_returns :
    ∀ fuel : Nat, ∃ s,
      segmentsEndpoint truncatedEnv fuel (sampleRequest "GET" "Bearer good" "a@b.c") =
        .timeout s ∧ fuel ≤ s.w.body.length := by
  intro fuel
  have hend : segmentsEndpoint truncatedEnv fuel (sampleRequest "GET" "Bearer good" "a@b.c") =
      getSegmentAndIdInfo truncatedEnv fuel (gateWorld "good")
        (sampleRequest "GET" "Bearer good" "a@b.c") :=
    keycloakAuth_of_PassesGate truncatedEnv _ _ ⟨by decide, by decide, rfl, rfl⟩
  obtain ⟨s, hs, hlen⟩ := getSegmentAndIdInfo_diverges truncatedEnv fuel (gateWorld "good")
    (sampleRequest "GET" "Bearer good" "a@b.c") "a@b.c" "segments" (by decide) rfl rfl rfl
    (Or.inl rfl)
  refine ⟨s, hend.trans hs, ?_⟩
  have h0 : (gateWorld "good").w.body.length = 0 := rfl
  omega


end SegmentsApi
